import Mathlib

/-!
Shallow embedding of the worker-pool supervisor (src/src/internal/Supervisor.js)
and proofs about it.

The supervisor is a single-threaded, event-driven object.  Its pure decision
logic (configuration merging, health aggregation, exit handling, heartbeat
bookkeeping, kill sweeps) is embedded as Lean functions over an explicit
supervisor state; the promise/timeout machinery of the shutdown sequence is
embedded as a small timed-outcome model of promises.
-/

namespace PoolHall

/-- Worker state, as assigned by the supervisor (`'down'` / `'up'` strings in
the source). -/
inductive WorkerState where
  | down
  | up
deriving DecidableEq

/-- One managed worker, following the collaborator interface the supervisor
uses: a stable string id, a `state` field the supervisor assigns, an opaque
process handle (modelled as a numeric token), and the liveness query
`isDead()` (modelled as the field `procDead`). -/
structure Worker where
  id : String
  state : WorkerState
  procId : Nat
  procDead : Bool
deriving DecidableEq

/-- The merged settings object built by `configure` (`this.settings`).
`hasWorkerEnv` records that the required `workerEnv` function was present. -/
structure Settings where
  workerCount : Nat := 0
  minWorkerCount : Nat := 0
  hasWorkerEnv : Bool := false
  gentleStopTimeout : Nat := 5000
  killTimeout : Nat := 2000
  heartbeatWorkerInterval : Nat := 500
  heartbeatMonitorInterval : Nat := 1000
  heartbeatStallTolerance : Nat := 5000
deriving DecidableEq

/-- A settings object as passed to `configure` (either the `settings` or the
`baseSettings` argument).  A field is `some v` when the corresponding property
is present on the object (the source tests presence with `in`), `none` when
absent; `workerEnvPresent` records presence of the `workerEnv` function. -/
structure SettingsInput where
  workerCount? : Option Nat := none
  workerEnvPresent : Bool := false
  minWorkerCount? : Option Nat := none
  gentleStopTimeout? : Option Nat := none
  killTimeout? : Option Nat := none
  heartbeatWorkerInterval? : Option Nat := none
  heartbeatMonitorInterval? : Option Nat := none
  heartbeatStallTolerance? : Option Nat := none
deriving DecidableEq

/-- Supervisor state: the fields set in the constructor.  `workers` is the
id-keyed worker map (a JS object iterated with `Object.values` /
`Object.entries`; modelled as a list in insertion order, each worker carrying
its own key).  `heartbeatTimestamps` maps worker id to the last heartbeat
timestamp; `heartbeatStartedAt` is the monitoring baseline (initially
`null`). -/
structure Supervisor where
  configured : Bool := false
  initializing : Bool := true
  workerPoolCreated : Bool := false
  workers : List Worker := []
  settings : Settings := {}
  closing : Bool := false
  heartbeatTimestamps : List (String × Nat) := []
  heartbeatStartedAt : Option Nat := none
deriving DecidableEq

/-- Spread-merge of `{...DEFAULT_SETTINGS, ...baseSettings, ...settings}`:
a later source wins when it has the property. -/
def mergeSettings (base s : SettingsInput) : SettingsInput :=
  { workerCount? := s.workerCount?.orElse fun _ => base.workerCount?
    workerEnvPresent := s.workerEnvPresent || base.workerEnvPresent
    minWorkerCount? := s.minWorkerCount?.orElse fun _ => base.minWorkerCount?
    gentleStopTimeout? := s.gentleStopTimeout?.orElse fun _ => base.gentleStopTimeout?
    killTimeout? := s.killTimeout?.orElse fun _ => base.killTimeout?
    heartbeatWorkerInterval? :=
      s.heartbeatWorkerInterval?.orElse fun _ => base.heartbeatWorkerInterval?
    heartbeatMonitorInterval? :=
      s.heartbeatMonitorInterval?.orElse fun _ => base.heartbeatMonitorInterval?
    heartbeatStallTolerance? :=
      s.heartbeatStallTolerance?.orElse fun _ => base.heartbeatStallTolerance? }

/-- Build the final `Settings` record from the merged input (defaults filled
in by the `DEFAULT_SETTINGS` spread), then derive `minWorkerCount` when the
merged object lacks it: `workerCount >= 4 ? workerCount - 2 : workerCount`. -/
def finalizeSettings (m : SettingsInput) : Settings :=
  let wc := m.workerCount?.getD 0
  { workerCount := wc
    minWorkerCount :=
      match m.minWorkerCount? with
      | some v => v
      | none => if wc ≥ 4 then wc - 2 else wc
    hasWorkerEnv := m.workerEnvPresent
    gentleStopTimeout := m.gentleStopTimeout?.getD 5000
    killTimeout := m.killTimeout?.getD 2000
    heartbeatWorkerInterval := m.heartbeatWorkerInterval?.getD 500
    heartbeatMonitorInterval := m.heartbeatMonitorInterval?.getD 1000
    heartbeatStallTolerance := m.heartbeatStallTolerance?.getD 5000 }

/-- `configure(settings, baseSettings)`.  Returns the thrown error (if any)
together with the supervisor state after the call.  Faithful to the source
order: the already-configured check throws first; then `this.configured =
true` is assigned; then the required properties `workerCount` and `workerEnv`
are checked (in that order) on the `settings` argument alone; only then is
`this.settings` assigned and `minWorkerCount` derived. -/
def configure (s : Supervisor) (settings base : SettingsInput) :
    Except String Unit × Supervisor :=
  if s.configured then
    (Except.error "poolHall already configured", s)
  else
    let s1 := { s with configured := true }
    if settings.workerCount?.isNone then
      (Except.error "missing required setting workerCount", s1)
    else if !settings.workerEnvPresent then
      (Except.error "missing required setting workerEnv", s1)
    else
      (Except.ok (), { s1 with settings := finalizeSettings (mergeSettings base settings) })

/-- The internal protocol messages the supervisor sends to workers
(`internalSend` payloads, before the `poolHallInternal` tag is added). -/
inductive Msg where
  | healthy
  | unhealthy
  | shutdown
deriving DecidableEq

/-- `internalSend(message)`: the message is sent to every tracked worker
(`Object.values(this.workers).forEach(worker => worker.send(...))`).
Result: the list of (recipient worker id, message) pairs, in map order. -/
def internalSend (s : Supervisor) (m : Msg) : List (String × Msg) :=
  s.workers.map fun w => (w.id, m)

/-- Count of workers currently in state `up`
(`Object.values(this.workers).filter(({state}) => state === up).length`). -/
def workersUp (s : Supervisor) : Nat :=
  (s.workers.filter fun w => w.state = WorkerState.up).length

/-- The health value as a pure function of the up-count, `workerCount`,
`minWorkerCount` and the `initializing` flag — the branch structure of
`setPoolHealth`. -/
def healthStatus (up workerCount minWorkerCount : Nat) (initializing : Bool) : Msg :=
  if initializing then
    if up = workerCount then Msg.healthy else Msg.unhealthy
  else if up ≥ minWorkerCount then Msg.healthy else Msg.unhealthy

/-- `setPoolHealth()`: recompute the up-count, branch on `initializing`,
broadcast `{act: healthy}` or `{act: unhealthy}` via `internalSend`, and
clear `initializing` on the first full pool.  Returns the updated state and
the act of the message broadcast (the full broadcast is `internalSend` of
that act, one copy per tracked worker: see `setPoolHealthSends`). -/
def setPoolHealth (s : Supervisor) : Supervisor × Msg :=
  if s.initializing then
    if workersUp s = s.settings.workerCount then
      ({ s with initializing := false }, Msg.healthy)
    else
      (s, Msg.unhealthy)
  else if workersUp s ≥ s.settings.minWorkerCount then
    (s, Msg.healthy)
  else
    (s, Msg.unhealthy)

/-- The messages `setPoolHealth` sends: its chosen act, delivered to every
tracked worker. -/
def setPoolHealthSends (s : Supervisor) : List (String × Msg) :=
  internalSend s (setPoolHealth s).2

/-- Association-list lookup for the `heartbeatTimestamps` object. -/
def tsLookup : List (String × Nat) → String → Option Nat
  | [], _ => none
  | (k, v) :: rest, key => if k = key then some v else tsLookup rest key

/-- Association-list assignment `m[key] = v` (JS object semantics: update in
place when the key exists, append otherwise). -/
def tsSet : List (String × Nat) → String → Nat → List (String × Nat)
  | [], key, v => [(key, v)]
  | (k, w) :: rest, key, v =>
      if k = key then (key, v) :: rest else (k, w) :: tsSet rest key v

/-- `recordHeartbeat(workerId)` at current time `now` (timestamps in
milliseconds of monotonic time).  `past` is the recorded timestamp for the
worker, falling back to `heartbeatStartedAt` (the JS `||`: a stored hrtime
pair is always truthy, `heartbeatStartedAt` is `null` until monitoring
starts).  Only when `past` is non-null is the delta event emitted; the
current timestamp is stored unconditionally.  Returns the updated state and
the emitted delta event, if any. -/
def recordHeartbeat (s : Supervisor) (now : Nat) (workerId : String) :
    Supervisor × Option (String × Nat) :=
  let past := (tsLookup s.heartbeatTimestamps workerId).orElse fun _ => s.heartbeatStartedAt
  let ev := past.map fun p => (workerId, now - p)
  ({ s with heartbeatTimestamps := tsSet s.heartbeatTimestamps workerId now }, ev)

/-- One firing of `monitorHeartbeat()` at current time `now`: for every
worker that is not dead, compare the elapsed time since its latest recorded
heartbeat (falling back to `heartbeatStartedAt`) against
`heartbeatStallTolerance`, and emit `workerStall` plus the diagnostic delta
for each worker at or over tolerance.  The monitor only ever runs after
`heartbeatStartedAt` has been set (it is first scheduled right after that
assignment), so the `getD 0` default for a `none` baseline is never
exercised in a reachable run.  The state is returned unchanged: the monitor
only reschedules itself and emits events. -/
def monitorHeartbeat (s : Supervisor) (now : Nat) :
    Supervisor × List (String × Nat) :=
  (s,
    (s.workers.filter fun w => !w.procDead).filterMap fun w =>
      let base := ((tsLookup s.heartbeatTimestamps w.id).orElse
        fun _ => s.heartbeatStartedAt).getD 0
      let delta := now - base
      if delta ≥ s.settings.heartbeatStallTolerance then some (w.id, delta) else none)

/-- The pool-level events whose constructor-registered handlers mutate
supervisor state (`this.on(workerUp, setPoolHealth)` etc.). -/
inductive PoolEvent where
  | workerUp (id : String)
  | workerDown (id : String)
  | workerHeartbeat (id : String)
  | workerTerminated (id : String)
deriving DecidableEq

/-- Dispatch of one pool-level event through the handlers registered in the
constructor: `workerUp` and `workerDown` run `setPoolHealth`,
`workerHeartbeat` runs `recordHeartbeat` (which sends nothing to workers),
`workerTerminated` has no registered handler.  Returns the updated state and
the messages sent to workers. -/
def handleEvent (s : Supervisor) (now : Nat) :
    PoolEvent → Supervisor × List (String × Msg)
  | PoolEvent.workerUp _ => ((setPoolHealth s).1, setPoolHealthSends s)
  | PoolEvent.workerDown _ => ((setPoolHealth s).1, setPoolHealthSends s)
  | PoolEvent.workerHeartbeat id => ((recordHeartbeat s now id).1, [])
  | PoolEvent.workerTerminated _ => (s, [])

/-- The broadcast performed by `gentleStop()`: `internalSend({act: shutdown})`
to every tracked worker (the only `internalSend` call outside
`setPoolHealth`). -/
def gentleStopSends (s : Supervisor) : List (String × Msg) :=
  internalSend s Msg.shutdown

/-- Outcome of the `once(exit, ...)` handler attached by
`connectWorkerProcessEvents`, together with the deferred
`replaceWorkerProcess` call it schedules.  `exitCode` is `none` when the
process died from a signal (JS `null`). -/
structure ExitOutcome where
  newState : WorkerState
  downEmitted : Bool
  terminatedEmitted : Bool
  replacementScheduled : Bool
  replacementLaunched : Bool
deriving DecidableEq

/-- `replaceWorkerProcess` forks a fresh process only when the supervisor is
not closing (`if (!this.closing) ...`). -/
def replaceLaunches (closing : Bool) : Bool := !closing

/-- The exit handler: mark the worker down and emit `down`; on `exitCode ===
0` emit `terminated`; otherwise schedule `replaceWorkerProcess` on the next
tick, which launches a replacement exactly when `closing` is false at that
point (`closing` is the supervisor flag at the time the deferred call
runs). -/
def onProcessExit (closing : Bool) (exitCode : Option Int) : ExitOutcome :=
  if exitCode = some 0 then
    { newState := WorkerState.down
      downEmitted := true
      terminatedEmitted := true
      replacementScheduled := false
      replacementLaunched := false }
  else
    { newState := WorkerState.down
      downEmitted := true
      terminatedEmitted := false
      replacementScheduled := true
      replacementLaunched := replaceLaunches closing }

/-- The two signals used by the kill sweeps. -/
inductive Signal where
  | SIGTERM
  | SIGKILL
deriving DecidableEq

/-- Result of one `killProcesses(signal)` call: the signals actually sent
(one `worker.process.kill(signal)` per live worker) and whether the call
returned the already-resolved `Promise.resolve()` (no live workers). -/
structure KillResult where
  signalsSent : List (String × Signal)
  liveCount : Nat
  immediate : Bool
deriving DecidableEq

/-- `killProcesses(signal)`: filter the tracked workers by `!isDead()`; if
any are live, send the signal to each and wait for their `down` events;
otherwise return `Promise.resolve()` with no signal sent. -/
def killProcesses (s : Supervisor) (signal : Signal) : KillResult :=
  let live := s.workers.filter fun w => !w.procDead
  if live.length > 0 then
    { signalsSent := live.map fun w => (w.id, signal)
      liveCount := live.length
      immediate := false }
  else
    { signalsSent := [], liveCount := 0, immediate := true }

/-- Worker-map assignment `this.workers[w.id] = w` (JS object semantics:
replace when the key exists, append otherwise). -/
def setWorkerEntry (ws : List Worker) (w : Worker) : List Worker :=
  if ws.any fun x => x.id = w.id then
    ws.map fun x => if x.id = w.id then w else x
  else
    ws ++ [w]

/-- The worker constructed for loop index `id` in `createWorkerPool`:
`new BaseWorker({id: strId, process: workerProcess, state: down}, ...)`.
The fresh process handle is represented by the numeric id itself. -/
def mkWorker (id : Nat) : Worker :=
  { id := toString id, state := WorkerState.down, procId := id, procDead := false }

/-- `createWorkerPool()`: a no-op when `workerPoolCreated` is already true;
otherwise set the flag and, for each id from 1 to `workerCount`, create a
worker in state `down` and store it under its string id. -/
def createWorkerPool (s : Supervisor) : Supervisor :=
  if s.workerPoolCreated then s
  else
    { s with
      workerPoolCreated := true
      workers := (List.range s.settings.workerCount).foldl
        (fun ws i => setWorkerEntry ws (mkWorker (i + 1))) s.workers }

/-- `worker.setProcess(newProcess, handler)` as seen from the worker map:
only the process handle of the worker object changes; id and map entry are
untouched. -/
def setProcess (w : Worker) (newProc : Nat) : Worker :=
  { w with procId := newProc, procDead := false }

/-- `replaceWorkerProcess(worker)` lifted to the supervisor state: when not
closing, fork a fresh process (handle `newProc`) and swap it into the
existing worker object for `workerId`; the worker map itself gains or loses
no entry. -/
def replaceWorkerProcess (s : Supervisor) (workerId : String) (newProc : Nat) :
    Supervisor :=
  if s.closing then s
  else
    { s with
      workers := s.workers.map fun w =>
        if w.id = workerId then setProcess w newProc else w }

/-- `start()`: clear `closing`, then `createWorkerPool()`. -/
def start (s : Supervisor) : Supervisor :=
  createWorkerPool { s with closing := false }

/-- The synchronous state effect of `stop()`: set `closing := true`.  (The
phase sequencing of `stop` is modelled separately, on timed promise
outcomes.) -/
def stopStateEffect (s : Supervisor) : Supervisor :=
  { s with closing := true }

end PoolHall

namespace PoolHall.Async

/-- Timed outcome of a promise: it settles (fulfilled or rejected) some
number of milliseconds after it is created, or never settles.  `α` is the
fulfillment value. -/
inductive POutcome (α : Type) where
  | resolved : Nat → α → POutcome α
  | rejected : Nat → POutcome α
  | pending : POutcome α
deriving DecidableEq

/-- When (if ever) an outcome settles. -/
def settleTime {α : Type} : POutcome α → Option Nat
  | POutcome.resolved t _ => some t
  | POutcome.rejected t => some t
  | POutcome.pending => none

/-- Shift an outcome later in time (a promise created `t` ms into the run). -/
def delay {α : Type} (t : Nat) : POutcome α → POutcome α
  | POutcome.resolved u v => POutcome.resolved (t + u) v
  | POutcome.rejected u => POutcome.rejected (t + u)
  | POutcome.pending => POutcome.pending

/-- `raceTo(promise, ms, onTimeout)`: race the promise against a timer that
fulfills with the `PROMISE_TIMEOUT` sentinel after `ms`.  If the promise
settles first its outcome wins (a rejection is re-thrown by the `catch`
branch); otherwise the race fulfills at `ms` with the sentinel value
`timeoutVal` (and `onTimeout` fires, emitting a diagnostic event). -/
def raceTo {α : Type} (p : POutcome α) (ms : Nat) (timeoutVal : α) : POutcome α :=
  match p with
  | POutcome.resolved t v =>
      if t ≤ ms then POutcome.resolved t v else POutcome.resolved ms timeoutVal
  | POutcome.rejected t =>
      if t ≤ ms then POutcome.rejected t else POutcome.resolved ms timeoutVal
  | POutcome.pending => POutcome.resolved ms timeoutVal

/-- `p.then(f, f)` where both the fulfillment and the rejection handler are
the same phase-starting function: as soon as `p` settles either way, the
next phase begins, and the compound promise adopts the phase outcome shifted
by the settle time of `p`.  If `p` never settles, neither does the
compound. -/
def thenBoth {α β : Type} (p : POutcome α) (q : POutcome β) : POutcome β :=
  match p with
  | POutcome.resolved t _ => delay t q
  | POutcome.rejected t => delay t q
  | POutcome.pending => POutcome.pending

/-- `stop()` as a timed-promise composition:
`raceTo(gentleStop(), gentleStopTimeout).then(killSequence(SIGTERM),
killSequence(SIGTERM)).then(killSequence(SIGKILL), killSequence(SIGKILL))`,
where each `killSequence` phase is itself `raceTo(killProcesses(sig),
killTimeout)`.  `gentle`, `kterm` and `kkill` are the (arbitrary) outcomes
of the three underlying waits, timed relative to their own phase start. -/
def stopPromise (gentle kterm kkill : POutcome Unit) (gentleStopTimeout killTimeout : Nat) :
    POutcome Unit :=
  thenBoth
    (thenBoth (raceTo gentle gentleStopTimeout ()) (raceTo kterm killTimeout ()))
    (raceTo kkill killTimeout ())

end PoolHall.Async

namespace PoolHall

/-! Decimal-string round trip: the string ids `toString 1 .. toString
workerCount` assigned by `createWorkerPool` are pairwise distinct, so each
loop iteration stores under a fresh key. -/

/-- Numeric value of a decimal digit character. -/
def digitVal (c : Char) : Nat := c.toNat - 48

/-- Value of a decimal digit string (most significant digit first). -/
def valFold (l : List Char) : Nat := l.foldl (fun acc c => 10 * acc + digitVal c) 0

/-! Concrete states used by witnesses and counterexamples. -/

/-- A closing pool of two workers whose processes are both dead. -/
def allDeadPool : Supervisor :=
  { initializing := false
    workerPoolCreated := true
    closing := true
    workers := [{ id := "1", state := WorkerState.down, procId := 1, procDead := true },
                { id := "2", state := WorkerState.down, procId := 2, procDead := true }]
    settings := { workerCount := 2, minWorkerCount := 2, hasWorkerEnv := true } }

/-- A one-worker pool with monitoring started at time 0 and no heartbeat
ever recorded: the stall scenario of the spec (default settings,
`heartbeatStallTolerance` 5000, monitor interval 1000). -/
def stalledPool : Supervisor :=
  { initializing := false
    workerPoolCreated := true
    workers := [{ id := "1", state := WorkerState.up, procId := 1, procDead := false }]
    settings := { workerCount := 1, minWorkerCount := 1, hasWorkerEnv := true }
    heartbeatStartedAt := some 0 }

/-- The monitor tick times among the first `ticks` firings (tick `k` runs at
time `(k+1) * interval`, monitoring having started at time 0) at which
`monitorHeartbeat` emits a `workerStall` event for `workerId`. -/
def stallTicks (s : Supervisor) (interval ticks : Nat) (workerId : String) : List Nat :=
  (((List.range ticks).map fun k => (k + 1) * interval)).filter fun t =>
    (monitorHeartbeat s t).2.any fun e => e.1 = workerId

/-- A configured supervisor (three workers) whose pool has not been created
yet. -/
def freshConfigured : Supervisor :=
  { configured := true
    settings := { workerCount := 3, minWorkerCount := 3, hasWorkerEnv := true } }

/-- The state a supervisor is constructed in (every field at its
constructor value). -/
def freshSupervisor : Supervisor := {}

/-- A `configure` argument that carries `workerEnv` but omits
`workerCount`. -/
def missingWorkerCount : SettingsInput := { workerEnvPresent := true }

/-- A supervisor that has already been configured. -/
def doubleConfigured : Supervisor := { configured := true }

/-- An initializing pool of two workers, both up. -/
def twoUpPool : Supervisor :=
  { initializing := true
    workerPoolCreated := true
    workers := [{ id := "1", state := WorkerState.up, procId := 1, procDead := false },
                { id := "2", state := WorkerState.up, procId := 2, procDead := false }]
    settings := { workerCount := 2, minWorkerCount := 2, hasWorkerEnv := true } }

lemma digitVal_digitChar (m : Nat) (h : m < 10) : digitVal (Nat.digitChar m) = m := by
  interval_cases m <;> decide

lemma toDigitsCore_append (f n : Nat) (ds : List Char) :
    Nat.toDigitsCore 10 f n ds = Nat.toDigitsCore 10 f n [] ++ ds := by
  induction f generalizing n ds with
  | zero => simp [Nat.toDigitsCore]
  | succ f ih =>
    simp only [Nat.toDigitsCore]
    by_cases h : n / 10 = 0
    · simp [h]
    · simp only [if_neg h]
      rw [ih (n / 10) [Nat.digitChar (n % 10)], ih (n / 10) (Nat.digitChar (n % 10) :: ds)]
      simp

lemma valFold_append_singleton (l : List Char) (c : Char) :
    valFold (l ++ [c]) = 10 * valFold l + digitVal c := by
  simp [valFold, List.foldl_append]

lemma valFold_toDigitsCore (f n : Nat) (h : n < f) :
    valFold (Nat.toDigitsCore 10 f n []) = n := by
  induction f generalizing n with
  | zero => omega
  | succ f ih =>
    simp only [Nat.toDigitsCore]
    by_cases h0 : n / 10 = 0
    · have hn : n < 10 := by omega
      simp only [if_pos h0, valFold, List.foldl_cons, List.foldl_nil]
      rw [digitVal_digitChar _ (Nat.mod_lt _ (by norm_num))]
      omega
    · simp only [if_neg h0]
      rw [toDigitsCore_append, valFold_append_singleton]
      have hpos : 0 < n := by omega
      have h1 : n / 10 < f :=
        lt_of_lt_of_le (Nat.div_lt_self hpos (by norm_num)) (by omega)
      rw [ih _ h1, digitVal_digitChar _ (Nat.mod_lt _ (by norm_num))]
      omega

lemma natRepr_injective : Function.Injective Nat.repr := by
  intro m n h
  have hdata : Nat.toDigits 10 m = Nat.toDigits 10 n := congrArg String.data h
  have hm := valFold_toDigitsCore (m + 1) m (Nat.lt_succ_self m)
  have hn := valFold_toDigitsCore (n + 1) n (Nat.lt_succ_self n)
  rw [Nat.toDigits] at hdata
  rw [hdata] at hm
  rw [Nat.toDigits] at hm
  omega

lemma natToString_injective : Function.Injective (fun n : Nat => toString n) :=
  natRepr_injective

/-- The string ids assigned by the pool-creation loop are pairwise
distinct. -/
lemma poolIds_nodup (wc : Nat) :
    (((List.range wc).map fun i => toString (i + 1))).Nodup := by
  refine (List.nodup_range wc).map ?_
  intro a b hab
  have := natToString_injective hab
  omega

lemma setWorkerEntry_fresh (ws : List Worker) (w : Worker)
    (h : ∀ x ∈ ws, x.id ≠ w.id) : setWorkerEntry ws w = ws ++ [w] := by
  unfold setWorkerEntry
  rw [if_neg]
  simp only [List.any_eq_true, decide_eq_true_eq, not_exists]
  intro x hx
  exact h x hx.1 hx.2

lemma foldl_setWorkerEntry (l : List Worker) :
    ∀ ws : List Worker, (∀ w ∈ l, ∀ x ∈ ws, x.id ≠ w.id) →
    (l.map Worker.id).Nodup → l.foldl setWorkerEntry ws = ws ++ l := by
  induction l with
  | nil => intro ws _ _; simp
  | cons w rest ih =>
    intro ws hfresh hnodup
    simp only [List.foldl_cons]
    rw [setWorkerEntry_fresh ws w fun x hx => hfresh w (List.mem_cons_self w rest) x hx]
    rw [ih (ws ++ [w]) ?_ ?_]
    · simp
    · intro w2 hw2 x hx
      rcases List.mem_append.mp hx with hxw | hxw
      · exact hfresh w2 (List.mem_cons_of_mem w hw2) x hxw
      · have hx1 : x = w := by simpa using hxw
        subst hx1
        simp only [List.map_cons, List.nodup_cons] at hnodup
        intro he
        exact hnodup.1 (he ▸ List.mem_map_of_mem Worker.id hw2)
    · simp only [List.map_cons, List.nodup_cons] at hnodup
      exact hnodup.2

/-- On a fresh supervisor (empty map, pool not yet created), the creation
loop stores exactly the workers for ids 1..workerCount, in order. -/
lemma createWorkerPool_workers (s : Supervisor) (hw : s.workers = [])
    (hc : s.workerPoolCreated = false) :
    (createWorkerPool s).workers =
      (List.range s.settings.workerCount).map fun i => mkWorker (i + 1) := by
  unfold createWorkerPool
  rw [if_neg (by rw [hc]; exact Bool.false_ne_true)]
  have hmap :
      (List.range s.settings.workerCount).foldl
          (fun ws i => setWorkerEntry ws (mkWorker (i + 1))) s.workers =
        ((List.range s.settings.workerCount).map fun i => mkWorker (i + 1)).foldl
          setWorkerEntry s.workers := by
    rw [List.foldl_map]
  rw [hmap, hw]
  rw [foldl_setWorkerEntry _ _ (by intro w _ x hx; cases hx) ?_]
  · simp
  · have : (((List.range s.settings.workerCount).map fun i => mkWorker (i + 1)).map
        Worker.id) = (List.range s.settings.workerCount).map fun i => toString (i + 1) := by
      rw [List.map_map]
      rfl
    rw [this]
    exact poolIds_nodup s.settings.workerCount

/-! ## Claim theorems -/

/-- C1: while `initializing` is true, `setPoolHealth` broadcasts
`{act: healthy}` iff the up-count equals `workerCount`, and exactly in that
case it clears `initializing` (otherwise the flag is untouched); once
`initializing` is false it broadcasts `{act: healthy}` iff the up-count is
at least `minWorkerCount`, and never sets `initializing` back to true. -/
theorem C1_setPoolHealth_policy (s : Supervisor) :
    (s.initializing = true →
      ((setPoolHealth s).2 = Msg.healthy ↔ workersUp s = s.settings.workerCount)
      ∧ ((setPoolHealth s).2 = Msg.healthy → (setPoolHealth s).1.initializing = false)
      ∧ ((setPoolHealth s).2 = Msg.unhealthy → (setPoolHealth s).1.initializing = true))
    ∧ (s.initializing = false →
      ((setPoolHealth s).2 = Msg.healthy ↔ workersUp s ≥ s.settings.minWorkerCount)
      ∧ (setPoolHealth s).1.initializing = false) := by
  refine ⟨fun hinit => ?_, fun hinit => ?_⟩
  · simp only [setPoolHealth, hinit, if_true]
    by_cases h : workersUp s = s.settings.workerCount
    · simp [h]
    · simp [h, hinit]
  · simp only [setPoolHealth, hinit, Bool.false_eq_true, if_false]
    by_cases h : workersUp s ≥ s.settings.minWorkerCount
    · simp [h, hinit]
    · simp [h, hinit]

/-- Witness for C1 at a concrete initializing pool with a full up-count. -/
theorem C1_setPoolHealth_policy_witness :
    (setPoolHealth twoUpPool).2 = Msg.healthy
    ∧ (setPoolHealth twoUpPool).1.initializing = false := by
  have h := (C1_setPoolHealth_policy twoUpPool).1 rfl
  exact ⟨h.1.mpr (by decide), h.2.1 (h.1.mpr (by decide))⟩

/-- C2: a process exit with non-zero (or signal-null) code while `closing`
is false launches a replacement; the same exit while `closing` is true does
not; an exit with code 0 never schedules a replacement and emits
`terminated` instead. -/
theorem C2_exit_replacement_policy (closing : Bool) (exitCode : Option Int) :
    (exitCode ≠ some 0 → closing = false →
      (onProcessExit closing exitCode).replacementLaunched = true)
    ∧ (closing = true → (onProcessExit closing exitCode).replacementLaunched = false)
    ∧ (exitCode = some 0 →
      (onProcessExit closing exitCode).replacementLaunched = false
      ∧ (onProcessExit closing exitCode).terminatedEmitted = true
      ∧ (onProcessExit closing exitCode).replacementScheduled = false) := by
  unfold onProcessExit replaceLaunches
  by_cases h : exitCode = some 0
  · simp [h]
  · simp [h]

/-- Witness for C2: crash while open is replaced; crash while closing is
not; clean exit emits `terminated`. -/
theorem C2_exit_replacement_policy_witness :
    (onProcessExit false (some 1)).replacementLaunched = true
    ∧ (onProcessExit true (some 1)).replacementLaunched = false
    ∧ (onProcessExit true (some 0)).terminatedEmitted = true
    ∧ (onProcessExit true (some 0)).replacementLaunched = false := by
  refine ⟨(C2_exit_replacement_policy false (some 1)).1 (by decide) rfl,
    (C2_exit_replacement_policy true (some 1)).2.1 rfl,
    ((C2_exit_replacement_policy true (some 0)).2.2 rfl).2.1,
    ((C2_exit_replacement_policy true (some 0)).2.2 rfl).1⟩

/-- C4 counterexample: `configure` on a fresh supervisor with `workerCount`
omitted throws, yet the failed call leaves the supervisor changed: the
`configured` flag has been set, so the observable state differs from the
state before the call. -/
theorem C4_configure_counterexample :
    (configure freshSupervisor missingWorkerCount {}).1 =
      Except.error "missing required setting workerCount"
    ∧ (configure freshSupervisor missingWorkerCount {}).2.configured = true
    ∧ freshSupervisor.configured = false
    ∧ (configure freshSupervisor missingWorkerCount {}).2 ≠ freshSupervisor :=
  ⟨rfl, rfl, rfl, by decide⟩

/-- C4 amended: a second `configure` always throws synchronously and leaves
the state unchanged; `configure` with `workerCount` (or `workerEnv`) omitted
always throws synchronously, but the failed call has already set the
`configured` flag (the only state it creates; `settings` is untouched). -/
theorem C4_configure_errors (s : Supervisor) (input base : SettingsInput) :
    (s.configured = true →
      configure s input base = (Except.error "poolHall already configured", s))
    ∧ (s.configured = false → input.workerCount? = none →
      configure s input base =
        (Except.error "missing required setting workerCount", { s with configured := true }))
    ∧ (s.configured = false → input.workerCount?.isSome = true →
        input.workerEnvPresent = false →
      configure s input base =
        (Except.error "missing required setting workerEnv", { s with configured := true })) := by
  refine ⟨fun h => ?_, fun h hw => ?_, fun h hw he => ?_⟩
  · simp [configure, h]
  · simp [configure, h, hw]
  · obtain ⟨v, hv⟩ := Option.isSome_iff_exists.mp hw
    simp [configure, h, hv, he]

/-- Witness for C4 amended, at the three concrete failing calls. -/
theorem C4_configure_errors_witness :
    configure doubleConfigured {} {} =
      (Except.error "poolHall already configured", doubleConfigured)
    ∧ configure freshSupervisor missingWorkerCount {} =
      (Except.error "missing required setting workerCount",
        { freshSupervisor with configured := true })
    ∧ configure freshSupervisor { workerCount? := some 4 } {} =
      (Except.error "missing required setting workerEnv",
        { freshSupervisor with configured := true }) :=
  ⟨(C4_configure_errors doubleConfigured {} {}).1 rfl,
    (C4_configure_errors freshSupervisor missingWorkerCount {}).2.1 rfl rfl,
    (C4_configure_errors freshSupervisor { workerCount? := some 4 } {}).2.2 rfl rfl rfl⟩

/-- C5: with no explicit `minWorkerCount` anywhere, the derived value is
`workerCount - 2` when `workerCount ≥ 4` and `workerCount` otherwise; an
explicitly supplied `minWorkerCount` is kept unchanged; `workerCount` itself
is stored as given. -/
theorem C5_minWorkerCount_derivation (s : Supervisor) (input base : SettingsInput)
    (wc : Nat) (h1 : s.configured = false) (h2 : input.workerCount? = some wc)
    (h3 : input.workerEnvPresent = true) :
    (configure s input base).2.settings.workerCount = wc
    ∧ (input.minWorkerCount? = none → base.minWorkerCount? = none →
      (configure s input base).2.settings.minWorkerCount =
        if wc ≥ 4 then wc - 2 else wc)
    ∧ (∀ m, input.minWorkerCount? = some m →
      (configure s input base).2.settings.minWorkerCount = m) := by
  refine ⟨?_, fun hm hb => ?_, fun m hm => ?_⟩
  · simp [configure, h1, h2, h3, mergeSettings, finalizeSettings, Option.orElse]
  · simp [configure, h1, h2, h3, hm, hb, mergeSettings, finalizeSettings, Option.orElse]
  · simp [configure, h1, h2, h3, hm, mergeSettings, finalizeSettings, Option.orElse]

/-- Witness for C5: `workerCount=6` derives `minWorkerCount=4`;
`workerCount=3` derives `3`; an explicit `minWorkerCount=5` survives. -/
theorem C5_minWorkerCount_derivation_witness :
    (configure freshSupervisor
      { workerCount? := some 6, workerEnvPresent := true } {}).2.settings.minWorkerCount = 4
    ∧ (configure freshSupervisor
      { workerCount? := some 3, workerEnvPresent := true } {}).2.settings.minWorkerCount = 3
    ∧ (configure freshSupervisor
      { workerCount? := some 6, workerEnvPresent := true,
        minWorkerCount? := some 5 } {}).2.settings.minWorkerCount = 5 := by
  refine ⟨?_, ?_, ?_⟩
  · have h := (C5_minWorkerCount_derivation freshSupervisor
      { workerCount? := some 6, workerEnvPresent := true } {} 6 rfl rfl rfl).2.1 rfl rfl
    simpa using h
  · have h := (C5_minWorkerCount_derivation freshSupervisor
      { workerCount? := some 3, workerEnvPresent := true } {} 3 rfl rfl rfl).2.1 rfl rfl
    simpa using h
  · exact (C5_minWorkerCount_derivation freshSupervisor
      { workerCount? := some 6, workerEnvPresent := true, minWorkerCount? := some 5 }
      {} 6 rfl rfl rfl).2.2 5 rfl

end PoolHall

namespace PoolHall.Async

lemma settleTime_raceTo {α : Type} (p : POutcome α) (ms : Nat) (v : α) :
    ∃ t, settleTime (raceTo p ms v) = some t ∧ t ≤ ms := by
  cases p with
  | resolved u w =>
    by_cases h : u ≤ ms
    · exact ⟨u, by simp [raceTo, settleTime, h], h⟩
    · exact ⟨ms, by simp [raceTo, settleTime, h], le_refl ms⟩
  | rejected u =>
    by_cases h : u ≤ ms
    · exact ⟨u, by simp [raceTo, settleTime, h], h⟩
    · exact ⟨ms, by simp [raceTo, settleTime, h], le_refl ms⟩
  | pending => exact ⟨ms, by simp [raceTo, settleTime], le_refl ms⟩

lemma settleTime_thenBoth {α β : Type} (p : POutcome α) (q : POutcome β) (t u : Nat)
    (hp : settleTime p = some t) (hq : settleTime q = some u) :
    settleTime (thenBoth p q) = some (t + u) := by
  cases p with
  | pending => simp [settleTime] at hp
  | resolved a w =>
    simp only [settleTime, Option.some.injEq] at hp
    subst hp
    cases q with
    | pending => simp [settleTime] at hq
    | resolved b x =>
      simp only [settleTime, Option.some.injEq] at hq
      subst hq
      simp [thenBoth, delay, settleTime]
    | rejected b =>
      simp only [settleTime, Option.some.injEq] at hq
      subst hq
      simp [thenBoth, delay, settleTime]
  | rejected a =>
    simp only [settleTime, Option.some.injEq] at hp
    subst hp
    cases q with
    | pending => simp [settleTime] at hq
    | resolved b x =>
      simp only [settleTime, Option.some.injEq] at hq
      subst hq
      simp [thenBoth, delay, settleTime]
    | rejected b =>
      simp only [settleTime, Option.some.injEq] at hq
      subst hq
      simp [thenBoth, delay, settleTime]

/-- C3: whatever the three underlying waits do (settle early, reject, or
hang forever), the promise returned by `stop()` settles, within the sum of
the three phase timeouts; in particular when all three waits hang, the
timeouts chain and `stop()` resolves exactly at
`gentleStopTimeout + killTimeout + killTimeout`. -/
theorem C3_stop_always_settles (gentle kterm kkill : POutcome Unit)
    (gentleStopTimeout killTimeout : Nat) :
    (∃ t, settleTime (stopPromise gentle kterm kkill gentleStopTimeout killTimeout) = some t
      ∧ t ≤ gentleStopTimeout + killTimeout + killTimeout)
    ∧ stopPromise POutcome.pending POutcome.pending POutcome.pending
        gentleStopTimeout killTimeout =
      POutcome.resolved (gentleStopTimeout + killTimeout + killTimeout) () := by
  constructor
  · obtain ⟨t1, h1, b1⟩ := settleTime_raceTo gentle gentleStopTimeout ()
    obtain ⟨t2, h2, b2⟩ := settleTime_raceTo kterm killTimeout ()
    obtain ⟨t3, h3, b3⟩ := settleTime_raceTo kkill killTimeout ()
    refine ⟨t1 + t2 + t3, ?_, by omega⟩
    unfold stopPromise
    exact settleTime_thenBoth _ _ (t1 + t2) t3 (settleTime_thenBoth _ _ t1 t2 h1 h2) h3
  · rfl

end PoolHall.Async

namespace PoolHall

/-- C6: when every tracked worker is already dead, a kill sweep sends no
signal and returns the already-resolved promise; hence neither the SIGTERM
sweep nor the SIGKILL sweep of `stop()` sends anything in that situation. -/
theorem C6_kill_sweep_no_live (s : Supervisor)
    (h : ∀ w ∈ s.workers, w.procDead = true) :
    (∀ signal, killProcesses s signal =
      { signalsSent := [], liveCount := 0, immediate := true })
    ∧ (killProcesses s Signal.SIGTERM).signalsSent = []
    ∧ (killProcesses s Signal.SIGKILL).signalsSent = [] := by
  have hfilter : (s.workers.filter fun w => !w.procDead) = [] := by
    rw [List.filter_eq_nil_iff]
    intro a ha
    simp [h a ha]
  refine ⟨fun signal => ?_, ?_, ?_⟩ <;> simp [killProcesses, hfilter]

/-- Witness for C6 at a concrete all-dead pool. -/
theorem C6_kill_sweep_no_live_witness :
    killProcesses allDeadPool Signal.SIGTERM =
      { signalsSent := [], liveCount := 0, immediate := true }
    ∧ killProcesses allDeadPool Signal.SIGKILL =
      { signalsSent := [], liveCount := 0, immediate := true } := by
  have h := C6_kill_sweep_no_live allDeadPool (by decide)
  exact ⟨h.1 Signal.SIGTERM, h.1 Signal.SIGKILL⟩

/-- C7 counterexample: in the spec scenario (tolerance 5000, monitor
interval 1000, no heartbeat for 6000ms of monitor time) the worker gets a
`workerStall` at the 5000ms tick and again at the 6000ms tick — two events,
not exactly one. -/
theorem C7_stall_counterexample :
    stallTicks stalledPool 1000 6 "1" = [5000, 6000]
    ∧ ¬(stallTicks stalledPool 1000 6 "1").length = 1 := by decide

/-- C7 amended: in the scenario a `workerStall` fires at every monitor tick
whose elapsed time reaches the tolerance — here the 5000ms and 6000ms ticks,
so at least one event, the first at the first tick at or past the 5000ms
mark — and the monitor never mutates the supervisor state (it only emits
events; no kill, no replacement). -/
theorem C7_stall_amended :
    stallTicks stalledPool 1000 6 "1" = [5000, 6000]
    ∧ (∀ t ∈ stallTicks stalledPool 1000 6 "1", t ≥ 5000)
    ∧ (∀ s : Supervisor, ∀ now : Nat, (monitorHeartbeat s now).1 = s) :=
  ⟨by decide, by decide, fun _ _ => rfl⟩

/-- Witness for C7 amended: the first stall tick is at 5000ms and the
monitor leaves the scenario state unchanged. -/
theorem C7_stall_amended_witness :
    (5000 ∈ stallTicks stalledPool 1000 6 "1" ∧ 5000 ≥ 5000)
    ∧ (monitorHeartbeat stalledPool 5000).1 = stalledPool :=
  ⟨⟨by decide, C7_stall_amended.2.1 5000 (by decide)⟩,
    C7_stall_amended.2.2 stalledPool 5000⟩

lemma setPoolHealth_msg (s : Supervisor) :
    (setPoolHealth s).2 = healthStatus (workersUp s) s.settings.workerCount
      s.settings.minWorkerCount s.initializing := by
  unfold setPoolHealth healthStatus
  split_ifs <;> rfl

/-- C8: a `workerUp` or `workerDown` event runs `setPoolHealth` once, which
broadcasts exactly one health-status message to every tracked worker, whose
value is the pure function `healthStatus` of the up-count, `workerCount`,
`minWorkerCount` and `initializing` (unconditionally, even when unchanged);
the other pool events broadcast nothing, and the only other broadcast in the
supervisor, the `gentleStop` one, carries `shutdown`, never a health
status. -/
theorem C8_health_broadcast (s : Supervisor) (now : Nat) (id : String) :
    ((handleEvent s now (PoolEvent.workerUp id)).2 =
      s.workers.map fun w => (w.id, healthStatus (workersUp s) s.settings.workerCount
        s.settings.minWorkerCount s.initializing))
    ∧ ((handleEvent s now (PoolEvent.workerDown id)).2 =
      s.workers.map fun w => (w.id, healthStatus (workersUp s) s.settings.workerCount
        s.settings.minWorkerCount s.initializing))
    ∧ (handleEvent s now (PoolEvent.workerHeartbeat id)).2 = []
    ∧ (handleEvent s now (PoolEvent.workerTerminated id)).2 = []
    ∧ (∀ wm ∈ gentleStopSends s, wm.2 = Msg.shutdown) := by
  refine ⟨?_, ?_, rfl, rfl, fun wm hwm => ?_⟩
  · simp [handleEvent, setPoolHealthSends, internalSend, setPoolHealth_msg]
  · simp [handleEvent, setPoolHealthSends, internalSend, setPoolHealth_msg]
  · simp only [gentleStopSends, internalSend, List.mem_map] at hwm
    obtain ⟨w, _, hw⟩ := hwm
    subst hw
    rfl

/-- Witness for C8 at a concrete two-worker pool reaching full health. -/
theorem C8_health_broadcast_witness :
    (handleEvent twoUpPool 0 (PoolEvent.workerUp "1")).2 =
      [("1", Msg.healthy), ("2", Msg.healthy)] := by
  rw [(C8_health_broadcast twoUpPool 0 "1").1]
  decide

lemma tsLookup_tsSet_self (m : List (String × Nat)) (k : String) (v : Nat) :
    tsLookup (tsSet m k v) k = some v := by
  induction m with
  | nil => simp [tsSet, tsLookup]
  | cons hd tl ih =>
    obtain ⟨k1, v1⟩ := hd
    by_cases h : k1 = k
    · simp [tsSet, h, tsLookup]
    · simp [tsSet, h, tsLookup, ih]

/-- C9 counterexample: a heartbeat that arrives before monitoring has
started (constructor state: no recorded heartbeat, `heartbeatStartedAt`
still null) reports no observability event, although the claim promises one
for every heartbeat; the timestamp is still stored. -/
theorem C9_recordHeartbeat_counterexample :
    (recordHeartbeat freshSupervisor 100 "1").2 = none
    ∧ tsLookup (recordHeartbeat freshSupervisor 100 "1").1.heartbeatTimestamps "1" =
      some 100 := by decide

/-- C9 amended: `recordHeartbeat` stores the current timestamp as the
latest heartbeat in every case; it reports a delta event measured from the
previously recorded heartbeat when one exists, and otherwise from
`heartbeatStartedAt` when monitoring has started — when neither exists (a
heartbeat before monitoring starts) no event is reported. -/
theorem C9_recordHeartbeat_behavior (s : Supervisor) (now : Nat) (id : String) :
    tsLookup (recordHeartbeat s now id).1.heartbeatTimestamps id = some now
    ∧ (∀ p, tsLookup s.heartbeatTimestamps id = some p →
      (recordHeartbeat s now id).2 = some (id, now - p))
    ∧ (tsLookup s.heartbeatTimestamps id = none →
      (recordHeartbeat s now id).2 = s.heartbeatStartedAt.map fun b => (id, now - b)) := by
  refine ⟨?_, fun p hp => ?_, fun hn => ?_⟩
  · simp [recordHeartbeat, tsLookup_tsSet_self]
  · simp [recordHeartbeat, hp, Option.orElse]
  · simp [recordHeartbeat, hn, Option.orElse]

/-- Witness for C9 amended: after monitoring starts, a first heartbeat at
700ms reports a delta from the monitoring baseline and is stored. -/
theorem C9_recordHeartbeat_behavior_witness :
    tsLookup (recordHeartbeat stalledPool 700 "1").1.heartbeatTimestamps "1" = some 700
    ∧ (recordHeartbeat stalledPool 700 "1").2 = some ("1", 700) := by
  have h := C9_recordHeartbeat_behavior stalledPool 700 "1"
  refine ⟨h.1, ?_⟩
  have h2 := h.2.2 (by decide)
  simpa using h2

lemma replace_preserves {α : Type} (s : Supervisor) (workerId : String) (newProc : Nat)
    (f : Worker → α) (hf : ∀ w, f (setProcess w newProc) = f w) :
    (replaceWorkerProcess s workerId newProc).workers.map f = s.workers.map f := by
  unfold replaceWorkerProcess
  by_cases h : s.closing = true
  · simp [h]
  · simp only [h, Bool.false_eq_true, if_false, List.map_map]
    apply List.map_congr_left
    intro w _
    by_cases hw : w.id = workerId
    · simp [hw, hf]
    · simp [hw]

/-- C10: after pool creation on a fresh supervisor the worker map holds
exactly the string ids 1..workerCount in order; a second `createWorkerPool`
(hence a second `start`) is a no-op on the map; `replaceWorkerProcess`
preserves every entry id and worker state (it swaps only the process
handle); and `stop`, `setPoolHealth`, `recordHeartbeat` and the heartbeat
monitor never touch the map. -/
theorem C10_worker_map_stable (s : Supervisor) (workerId : String) (newProc now : Nat) :
    (s.workers = [] → s.workerPoolCreated = false →
      (createWorkerPool s).workers.map Worker.id =
        (List.range s.settings.workerCount).map fun i => toString (i + 1))
    ∧ (s.workerPoolCreated = true → createWorkerPool s = s)
    ∧ (replaceWorkerProcess s workerId newProc).workers.map Worker.id =
        s.workers.map Worker.id
    ∧ (replaceWorkerProcess s workerId newProc).workers.map Worker.state =
        s.workers.map Worker.state
    ∧ (s.workerPoolCreated = true → (start s).workers = s.workers)
    ∧ (stopStateEffect s).workers = s.workers
    ∧ (setPoolHealth s).1.workers = s.workers
    ∧ (recordHeartbeat s now workerId).1.workers = s.workers
    ∧ (monitorHeartbeat s now).1.workers = s.workers := by
  refine ⟨fun hw hc => ?_, fun hc => ?_, ?_, ?_, fun hc => ?_, rfl, ?_, rfl, rfl⟩
  · rw [createWorkerPool_workers s hw hc, List.map_map]
    rfl
  · simp [createWorkerPool, hc]
  · exact replace_preserves s workerId newProc Worker.id fun w => rfl
  · exact replace_preserves s workerId newProc Worker.state fun w => rfl
  · simp [start, createWorkerPool, hc]
  · unfold setPoolHealth
    split_ifs <;> rfl

/-- Witness for C10: creating the three-worker pool yields ids 1..3; a
second creation is a no-op; replacement keeps the ids. -/
theorem C10_worker_map_stable_witness :
    (createWorkerPool freshConfigured).workers.map Worker.id = ["1", "2", "3"]
    ∧ createWorkerPool twoUpPool = twoUpPool
    ∧ (replaceWorkerProcess twoUpPool "1" 7).workers.map Worker.id = ["1", "2"] := by
  have h := C10_worker_map_stable freshConfigured "1" 7 0
  have h2 := C10_worker_map_stable twoUpPool "1" 7 0
  refine ⟨?_, h2.2.1 rfl, ?_⟩
  · rw [h.1 rfl rfl]
    rfl
  · rw [h2.2.2.1]
    rfl

end PoolHall
